import Mathlib

/-!
Verification of `raiden_libs/network/matrix/client.py` (`GMatrixClient`).

The sync loop `listen_forever` is embedded as a pure function over a finite
script of per-iteration outcomes: each list element is what the `self._sync`
call of one iteration does (return normally, raise a `MatrixRequestError`
with a status code, or raise some other exception).  The script ending models
`should_listen` being cleared externally.  The function returns the ordered
trace of observable events (transport calls, sleeps with their durations,
exception-handler invocations) together with the exception propagating out of
the loop, if any.
-/

namespace GMatrix

/-- Outcome of one `self._sync(timeout_ms)` call inside `listen_forever`. -/
inductive SyncOutcome where
  /-- `_sync` returned normally. -/
  | success : SyncOutcome
  /-- `_sync` raised `MatrixRequestError` with status `code`. -/
  | matrixError (code : Nat) : SyncOutcome
  /-- `_sync` raised a non-`MatrixRequestError` exception, tagged for identity. -/
  | otherError (tag : Nat) : SyncOutcome
deriving DecidableEq, Repr

/-- A Python exception value escaping or reaching the handler. -/
inductive Exc where
  | matrixError (code : Nat) : Exc
  | otherError (tag : Nat) : Exc
deriving DecidableEq, Repr

/-- Observable events of a run of `listen_forever`, in order. -/
inductive Event where
  /-- a `self._sync(timeout_ms)` transport call was issued -/
  | syncCall : Event
  /-- `gevent.sleep(d)` was executed with the current backoff delay `d` -/
  | slept (d : Nat) : Event
  /-- `exception_handler(e)` was invoked -/
  | handled (e : Exc) : Event
deriving DecidableEq, Repr

/-- Embedding of `GMatrixClient.listen_forever`.

`hasHandler` says whether `exception_handler` is not `None`; `limit` is
`self.bad_sync_timeout_limit` (the backoff ceiling, set by the parent class);
`base` is the `bad_sync_timeout` argument; the final `Nat` argument is the
running `_bad_sync_timeout` local.  Mirrors the source loop body:

* on success, `_bad_sync_timeout` is reset to `bad_sync_timeout`;
* on `MatrixRequestError` with `e.code >= 500`, sleep for the current
  `_bad_sync_timeout`, then set it to `min(_bad_sync_timeout * 2,
  self.bad_sync_timeout_limit)` and loop;
* on `MatrixRequestError` with `e.code < 500`, re-`raise` (this happens
  inside the `except MatrixRequestError` clause, so the later
  `except Exception` clause never sees it);
* on any other exception, call the handler if present and loop, else
  re-`raise`. -/
def listen_forever (hasHandler : Bool) (limit base : Nat) :
    List SyncOutcome → Nat → List Event × Option Exc
  | [], _ => ([], none)
  | .success :: rest, _ =>
    let nxt := listen_forever hasHandler limit base rest base
    (.syncCall :: nxt.1, nxt.2)
  | .matrixError code :: rest, d =>
    if code < 500 then
      ([.syncCall], some (.matrixError code))
    else
      let nxt := listen_forever hasHandler limit base rest (min (d * 2) limit)
      (.syncCall :: .slept d :: nxt.1, nxt.2)
  | .otherError tag :: rest, d =>
    if hasHandler then
      let nxt := listen_forever hasHandler limit base rest d
      (.syncCall :: .handled (.otherError tag) :: nxt.1, nxt.2)
    else
      ([.syncCall], some (.otherError tag))

/-- The exception an outcome makes escape the loop body, if any:
`MatrixRequestError` with code < 500 always escapes; any other exception
escapes exactly when no handler is configured. -/
def fatalExc (hasHandler : Bool) : SyncOutcome → Option Exc
  | .success => none
  | .matrixError code => if code < 500 then some (.matrixError code) else none
  | .otherError tag => if hasHandler then none else some (.otherError tag)

/-- Every outcome in the list lets the loop continue. -/
def nonFatalList (hasHandler : Bool) (l : List SyncOutcome) : Prop :=
  ∀ o ∈ l, fatalExc hasHandler o = none

/-- The value of the `_bad_sync_timeout` local after processing a (non-fatal)
script, starting from `d`. -/
def delayAfter (limit base : Nat) : List SyncOutcome → Nat → Nat
  | [], d => d
  | .success :: rest, _ => delayAfter limit base rest base
  | .matrixError _ :: rest, d => delayAfter limit base rest (min (d * 2) limit)
  | .otherError _ :: rest, d => delayAfter limit base rest d

/-- The sleep durations of a trace, in order. -/
def sleeps (es : List Event) : List Nat :=
  es.filterMap fun e => match e with | .slept d => some d | _ => none

/-- Number of transport (`_sync`) calls in a trace. -/
def syncCount (es : List Event) : Nat :=
  (es.filter fun e => match e with | .syncCall => true | _ => false).length

/-- The exceptions passed to `exception_handler`, in order. -/
def handledEvents (es : List Event) : List Exc :=
  es.filterMap fun e => match e with | .handled x => some x | _ => none

example :
    listen_forever false 80 5 [.matrixError 503, .matrixError 503, .matrixError 503, .success] 5
      = ([.syncCall, .slept 5, .syncCall, .slept 10, .syncCall, .slept 20, .syncCall], none) := by
  decide

example :
    listen_forever true 3600 5 [.matrixError 401, .success] 5
      = ([.syncCall], some (.matrixError 401)) := by
  decide

theorem delayAfter_append (limit base : Nat) (l1 l2 : List SyncOutcome) :
    ∀ d, delayAfter limit base (l1 ++ l2) d
      = delayAfter limit base l2 (delayAfter limit base l1 d) := by
  induction l1 with
  | nil => intro d; simp [delayAfter]
  | cons o tl ih => intro d; cases o <;> simp [delayAfter, ih]

theorem listen_forever_append (h : Bool) (limit base : Nat) (rest pre : List SyncOutcome) :
    ∀ (d : Nat), nonFatalList h pre →
      listen_forever h limit base (pre ++ rest) d
        = ((listen_forever h limit base pre d).1
            ++ (listen_forever h limit base rest (delayAfter limit base pre d)).1,
           (listen_forever h limit base rest (delayAfter limit base pre d)).2) := by
  induction pre with
  | nil => intro d _; simp [listen_forever, delayAfter]
  | cons o tl ih =>
    intro d hnf
    have ho : fatalExc h o = none := hnf o (List.mem_cons_self _ _)
    have htl : nonFatalList h tl := fun x hx => hnf x (List.mem_cons_of_mem _ hx)
    cases o with
    | success =>
      simp only [List.cons_append, listen_forever, delayAfter, List.append_eq]
      rw [ih base htl]
    | matrixError c =>
      have hc : ¬ c < 500 := by
        intro hlt
        simp [fatalExc, hlt] at ho
      simp only [List.cons_append, listen_forever, delayAfter, List.append_eq, if_neg hc]
      rw [ih (min (d * 2) limit) htl]
    | otherError t =>
      have hh : h = true := by
        cases h with
        | false => simp [fatalExc] at ho
        | true => rfl
      subst hh
      simp only [List.cons_append, listen_forever, delayAfter, List.append_eq, if_pos trivial, if_true]
      rw [ih d htl]

theorem listen_forever_fatal_head (h : Bool) (limit base d : Nat) (o : SyncOutcome) (e : Exc)
    (rest : List SyncOutcome) (ho : fatalExc h o = some e) :
    listen_forever h limit base (o :: rest) d = ([.syncCall], some e) := by
  cases o with
  | success => simp [fatalExc] at ho
  | matrixError c =>
    by_cases hc : c < 500
    · simp only [fatalExc, if_pos hc, Option.some.injEq] at ho
      simp [listen_forever, hc, ho]
    · simp [fatalExc, hc] at ho
  | otherError t =>
    cases h with
    | true => simp [fatalExc] at ho
    | false =>
      simp only [fatalExc, if_neg Bool.false_ne_true, Option.some.injEq] at ho
      simp [listen_forever, ho]

theorem syncCount_append (a b : List Event) : syncCount (a ++ b) = syncCount a + syncCount b := by
  simp [syncCount, List.filter_append]

theorem sleeps_append (a b : List Event) : sleeps (a ++ b) = sleeps a ++ sleeps b := by
  simp [sleeps, List.filterMap_append]

theorem handledEvents_append (a b : List Event) :
    handledEvents (a ++ b) = handledEvents a ++ handledEvents b := by
  simp [handledEvents, List.filterMap_append]

theorem syncCount_nonfatal (h : Bool) (limit base : Nat) (pre : List SyncOutcome) :
    ∀ d, nonFatalList h pre → syncCount (listen_forever h limit base pre d).1 = pre.length := by
  induction pre with
  | nil => intro d _; simp [listen_forever, syncCount]
  | cons o tl ih =>
    intro d hnf
    have ho : fatalExc h o = none := hnf o (List.mem_cons_self _ _)
    have htl : nonFatalList h tl := fun x hx => hnf x (List.mem_cons_of_mem _ hx)
    cases o with
    | success =>
      simp only [listen_forever]
      simp [syncCount, List.filter] at ih ⊢
      exact ih base htl
    | matrixError c =>
      have hc : ¬ c < 500 := by
        intro hlt; simp [fatalExc, hlt] at ho
      simp only [listen_forever, if_neg hc]
      simp [syncCount, List.filter] at ih ⊢
      exact ih (min (d * 2) limit) htl
    | otherError t =>
      have hh : h = true := by
        cases h with
        | false => simp [fatalExc] at ho
        | true => rfl
      subst hh
      simp only [listen_forever, if_true]
      simp [syncCount, List.filter] at ih ⊢
      exact ih d htl

theorem raised_matrix_code_lt (h : Bool) (limit base : Nat) (script : List SyncOutcome) :
    ∀ (d c : Nat),
      (listen_forever h limit base script d).2 = some (Exc.matrixError c) → c < 500 := by
  induction script with
  | nil => intro d c hc; simp [listen_forever] at hc
  | cons o tl ih =>
    intro d c hc
    cases o with
    | success =>
      simp only [listen_forever] at hc
      exact ih base c hc
    | matrixError k =>
      by_cases hk : k < 500
      · simp only [listen_forever, if_pos hk, Option.some.injEq, Exc.matrixError.injEq] at hc
        omega
      · simp only [listen_forever, if_neg hk] at hc
        exact ih (min (d * 2) limit) c hc
    | otherError t =>
      cases h with
      | true =>
        simp only [listen_forever, if_true] at hc
        exact ih d c hc
      | false =>
        simp only [listen_forever, Bool.false_eq_true, if_false] at hc
        exact absurd hc (by simp)

theorem min_mul_cap (a l k : Nat) (hk : 1 ≤ k) : min (min a l * k) l = min (a * k) l := by
  rcases Nat.le_total a l with hal | hla
  · rw [Nat.min_eq_left hal]
  · rw [Nat.min_eq_right hla]
    have h1 : l ≤ l * k := Nat.le_mul_of_pos_right l hk
    have h2 : l ≤ a * k := le_trans hla (Nat.le_mul_of_pos_right a hk)
    rw [Nat.min_eq_right h1, Nat.min_eq_right h2]

/-- The sleep durations produced by a streak of transient failures starting at
delay `d`: the current delay, then the doubled-and-capped successors. -/
def expectedSleeps (limit : Nat) : Nat → Nat → List Nat
  | 0, _ => []
  | n + 1, d => d :: expectedSleeps limit n (min (d * 2) limit)

theorem delayAfter_replicate (limit base c : Nat) :
    ∀ (N d : Nat),
      delayAfter limit base (List.replicate N (SyncOutcome.matrixError c)) d
        = if N = 0 then d else min (d * 2 ^ N) limit := by
  intro N
  induction N with
  | zero => intro d; simp [delayAfter]
  | succ n ihn =>
    intro d
    simp only [List.replicate_succ, delayAfter, ihn]
    rcases eq_or_ne n 0 with h0 | h0
    · subst h0; simp [pow_one]
    · simp only [if_neg h0, if_neg (Nat.succ_ne_zero n)]
      rw [min_mul_cap _ _ _ Nat.one_le_two_pow]
      congr 1
      ring

theorem sleeps_replicate_expected (h : Bool) (limit base c : Nat) (hc : ¬ c < 500)
    (rest : List SyncOutcome) :
    ∀ (N d : Nat),
      sleeps (listen_forever h limit base
          (List.replicate N (SyncOutcome.matrixError c) ++ rest) d).1
        = expectedSleeps limit N d
          ++ sleeps (listen_forever h limit base rest
               (delayAfter limit base (List.replicate N (SyncOutcome.matrixError c)) d)).1 := by
  intro N
  induction N with
  | zero => intro d; simp [expectedSleeps, delayAfter]
  | succ n ihn =>
    intro d
    simp only [List.replicate_succ, List.cons_append, listen_forever, List.append_eq,
      if_neg hc, expectedSleeps, delayAfter]
    simp only [sleeps, List.filterMap_cons]
    simp only [sleeps] at ihn
    rw [ihn (min (d * 2) limit)]

theorem expectedSleeps_formula (limit : Nat) :
    ∀ (N d : Nat),
      expectedSleeps limit N d
        = (List.range N).map fun i => if i = 0 then d else min (d * 2 ^ i) limit := by
  intro N
  induction N with
  | zero => intro d; simp [expectedSleeps]
  | succ n ihn =>
    intro d
    rw [List.range_succ_eq_map]
    simp only [expectedSleeps, ihn (min (d * 2) limit), List.map_cons, List.map_map]
    have hmap :
        List.map (fun i => if i = 0 then min (d * 2) limit
            else min (min (d * 2) limit * 2 ^ i) limit) (List.range n)
          = List.map ((fun i => if i = 0 then d else min (d * 2 ^ i) limit) ∘ Nat.succ)
              (List.range n) := by
      apply List.map_congr_left
      intro i _
      have hsucc : ¬ (Nat.succ i = 0) := Nat.succ_ne_zero i
      simp only [Function.comp_apply, if_neg hsucc]
      rcases eq_or_ne i 0 with h0 | h0
      · subst h0; simp [pow_one]
      · simp only [if_neg h0]
        rw [min_mul_cap _ _ _ Nat.one_le_two_pow]
        congr 1
        rw [Nat.succ_eq_add_one, pow_succ]
        ring
    rw [hmap]
    simp

theorem sleeps_bounded (h : Bool) (limit base : Nat) (hbl : base ≤ limit)
    (script : List SyncOutcome) :
    ∀ d, base ≤ d → d ≤ limit →
      ∀ x ∈ sleeps (listen_forever h limit base script d).1, base ≤ x ∧ x ≤ limit := by
  induction script with
  | nil => intro d _ _ x hx; simp [listen_forever, sleeps] at hx
  | cons o tl ih =>
    intro d hbd hdl x hx
    cases o with
    | success =>
      simp only [listen_forever, sleeps, List.filterMap_cons] at hx
      exact ih base le_rfl hbl x hx
    | matrixError k =>
      by_cases hk : k < 500
      · simp [listen_forever, hk, sleeps] at hx
      · simp only [listen_forever, if_neg hk, sleeps, List.filterMap_cons,
          List.mem_cons] at hx
        rcases hx with hx | hx
        · subst hx; exact ⟨hbd, hdl⟩
        · refine ih (min (d * 2) limit) ?_ (Nat.min_le_right _ _) x hx
          exact le_min (le_trans hbd (Nat.le_mul_of_pos_right d (by norm_num))) hbl
    | otherError t =>
      cases h with
      | true =>
        simp only [listen_forever, if_true, sleeps, List.filterMap_cons] at hx
        exact ih d hbd hdl x hx
      | false =>
        simp [listen_forever, sleeps] at hx

instance (h : Bool) (l : List SyncOutcome) : Decidable (nonFatalList h l) :=
  inferInstanceAs (Decidable (∀ o ∈ l, fatalExc h o = none))

/-- **C1**: inside `listen_forever`, a `MatrixRequestError` with status ≥ 500
is transient — the loop sleeps for the current backoff delay and carries on
with the remaining iterations, the error never escaping — while a status
< 500 is fatal: the run ends at that very iteration with the error
propagating, whatever would have come afterwards. -/
theorem listen_forever_status_classification (h : Bool) (limit base d c : Nat)
    (pre rest : List SyncOutcome) (hpre : nonFatalList h pre) :
    listen_forever h limit base (pre ++ SyncOutcome.matrixError c :: rest) d
      = (if 500 ≤ c then
          ((listen_forever h limit base pre d).1
            ++ Event.syncCall :: Event.slept (delayAfter limit base pre d)
              :: (listen_forever h limit base rest
                    (min (delayAfter limit base pre d * 2) limit)).1,
           (listen_forever h limit base rest
              (min (delayAfter limit base pre d * 2) limit)).2)
        else
          ((listen_forever h limit base pre d).1 ++ [Event.syncCall],
           some (Exc.matrixError c)))
      ∧ (listen_forever h limit base (pre ++ [SyncOutcome.matrixError c]) d).2
          = (if 500 ≤ c then none else some (Exc.matrixError c)) := by
  constructor
  · rw [listen_forever_append h limit base (SyncOutcome.matrixError c :: rest) pre d hpre]
    by_cases hc : c < 500
    · rw [if_neg (by omega)]
      rw [listen_forever_fatal_head h limit base _ (SyncOutcome.matrixError c)
        (Exc.matrixError c) rest (by simp [fatalExc, hc])]
    · rw [if_pos (by omega)]
      simp only [listen_forever, if_neg hc]
  · rw [listen_forever_append h limit base [SyncOutcome.matrixError c] pre d hpre]
    by_cases hc : c < 500
    · rw [if_neg (by omega)]
      rw [listen_forever_fatal_head h limit base _ (SyncOutcome.matrixError c)
        (Exc.matrixError c) [] (by simp [fatalExc, hc])]
    · rw [if_pos (by omega)]
      simp only [listen_forever, if_neg hc]

/-- **C2 counterexample**: with an exception handler configured, a fatal
`MatrixRequestError` with status 401 is *not* passed to the handler and the
loop does not continue — the error propagates at once, because the
`except MatrixRequestError` clause re-raises before the generic
`except Exception` clause can see it. -/
theorem listen_forever_handler_bypass_counterexample :
    listen_forever true 3600 5 [SyncOutcome.matrixError 401, SyncOutcome.success] 5
      = ([Event.syncCall], some (Exc.matrixError 401))
    ∧ handledEvents (listen_forever true 3600 5
        [SyncOutcome.matrixError 401, SyncOutcome.success] 5).1 = [] := by
  decide

/-- **C2 (amended)**: with a handler configured, a fatal failure that is not
a `MatrixRequestError` is passed to the handler exactly once and the loop
continues with the next iteration; but a `MatrixRequestError` with status
< 500 still propagates immediately, bypassing the handler. -/
theorem listen_forever_handler_invocation (limit base d t c : Nat)
    (pre rest : List SyncOutcome) (hpre : nonFatalList true pre) (hc : c < 500) :
    listen_forever true limit base (pre ++ SyncOutcome.otherError t :: rest) d
      = ((listen_forever true limit base pre d).1
          ++ Event.syncCall :: Event.handled (Exc.otherError t)
            :: (listen_forever true limit base rest (delayAfter limit base pre d)).1,
         (listen_forever true limit base rest (delayAfter limit base pre d)).2)
    ∧ handledEvents (listen_forever true limit base
          (pre ++ [SyncOutcome.otherError t]) d).1
        = handledEvents (listen_forever true limit base pre d).1 ++ [Exc.otherError t]
    ∧ listen_forever true limit base (pre ++ SyncOutcome.matrixError c :: rest) d
        = ((listen_forever true limit base pre d).1 ++ [Event.syncCall],
           some (Exc.matrixError c)) := by
  refine ⟨?_, ?_, ?_⟩
  · rw [listen_forever_append true limit base (SyncOutcome.otherError t :: rest) pre d hpre]
    simp only [listen_forever, if_true]
  · rw [listen_forever_append true limit base [SyncOutcome.otherError t] pre d hpre]
    simp only [handledEvents_append]
    simp [listen_forever, handledEvents]
  · rw [listen_forever_append true limit base (SyncOutcome.matrixError c :: rest) pre d hpre]
    rw [listen_forever_fatal_head true limit base _ (SyncOutcome.matrixError c)
      (Exc.matrixError c) rest (by simp [fatalExc, hc])]

/-- **C3**: starting from a fresh (or just-reset) backoff state, `N`
consecutive transient (status ≥ 500) failures produce exactly the sleep
sequence `base, min(base*2, ceiling), min(base*4, ceiling), ...`; in
particular with base 5 and ceiling 80, three consecutive 503 responses sleep
5, 10 and 20 seconds. -/
theorem listen_forever_backoff_sequence (h : Bool) (limit base c N : Nat) (hc : 500 ≤ c)
    (rest : List SyncOutcome) :
    sleeps (listen_forever h limit base
        (List.replicate N (SyncOutcome.matrixError c) ++ rest) base).1
      = ((List.range N).map fun i => if i = 0 then base else min (base * 2 ^ i) limit)
        ++ sleeps (listen_forever h limit base rest
             (if N = 0 then base else min (base * 2 ^ N) limit)).1
    ∧ sleeps (listen_forever false 80 5
        (List.replicate 3 (SyncOutcome.matrixError 503) ++ [SyncOutcome.success]) 5).1
        = [5, 10, 20] := by
  constructor
  · rw [sleeps_replicate_expected h limit base c (by omega) rest N base]
    rw [expectedSleeps_formula, delayAfter_replicate]
  · decide

/-- **C4**: after any successful sync iteration the backoff delay is reset to
the configured base: whatever the prior failure history `pre` and running
delay `d`, the run after the success is the run of the remaining script with
delay `base`. -/
theorem listen_forever_reset_after_success (h : Bool) (limit base d : Nat)
    (pre rest : List SyncOutcome) (hpre : nonFatalList h pre) :
    listen_forever h limit base (pre ++ SyncOutcome.success :: rest) d
      = ((listen_forever h limit base (pre ++ [SyncOutcome.success]) d).1
          ++ (listen_forever h limit base rest base).1,
         (listen_forever h limit base rest base).2)
    ∧ delayAfter limit base (pre ++ [SyncOutcome.success]) d = base := by
  have hpre1 : nonFatalList h (pre ++ [SyncOutcome.success]) := by
    intro o hor
    rcases List.mem_append.mp hor with hx | hx
    · exact hpre o hx
    · simp only [List.mem_singleton] at hx
      subst hx
      rfl
  have hda : delayAfter limit base (pre ++ [SyncOutcome.success]) d = base := by
    rw [delayAfter_append]
    simp [delayAfter]
  refine ⟨?_, hda⟩
  have happ := listen_forever_append h limit base rest (pre ++ [SyncOutcome.success]) d hpre1
  rw [hda, List.append_assoc, List.singleton_append] at happ
  exact happ

/-- **C5**: with no exception handler configured, a fatal failure (for
example a 401 response) ends the run at that iteration: the error
propagates, the transport is called exactly `pre.length + 1` times, and the
part of the script after the failure is never executed. -/
theorem listen_forever_fatal_stops (limit base d : Nat) (o : SyncOutcome) (e : Exc)
    (pre rest rest2 : List SyncOutcome) (hpre : nonFatalList false pre)
    (ho : fatalExc false o = some e) :
    listen_forever false limit base (pre ++ o :: rest) d
      = ((listen_forever false limit base pre d).1 ++ [Event.syncCall], some e)
    ∧ syncCount (listen_forever false limit base (pre ++ o :: rest) d).1
        = pre.length + 1
    ∧ listen_forever false limit base (pre ++ o :: rest) d
        = listen_forever false limit base (pre ++ o :: rest2) d := by
  have key : ∀ r : List SyncOutcome,
      listen_forever false limit base (pre ++ o :: r) d
        = ((listen_forever false limit base pre d).1 ++ [Event.syncCall], some e) := by
    intro r
    rw [listen_forever_append false limit base (o :: r) pre d hpre,
      listen_forever_fatal_head false limit base _ o e r ho]
  refine ⟨key rest, ?_, by rw [key rest, key rest2]⟩
  rw [key rest]
  show syncCount ((listen_forever false limit base pre d).1 ++ [Event.syncCall])
    = pre.length + 1
  rw [syncCount_append, syncCount_nonfatal false limit base pre d hpre]
  simp [syncCount]

/-- **C6**: whenever `0 < base ≤ ceiling`, every sleep performed during a run
of `listen_forever` started at delay `base` uses a delay within
`[base, ceiling]`. -/
theorem listen_forever_delay_in_range (h : Bool) (limit base : Nat)
    (script : List SyncOutcome) (hpos : 0 < base) (hbl : base ≤ limit) :
    (sleeps (listen_forever h limit base script base).1).Forall
      (fun x => base ≤ x ∧ x ≤ limit) := by
  rw [List.forall_iff_forall_mem]
  exact sleeps_bounded h limit base hbl script base le_rfl hbl

/-- Witness for C1 at `h = false`, `limit = 80`, `base = d = 5`, `c = 503`,
`pre = [success]`, `rest = [success]`. -/
theorem listen_forever_status_classification_witness :
    nonFatalList false [SyncOutcome.success]
    ∧ (listen_forever false 80 5
          ([SyncOutcome.success] ++ SyncOutcome.matrixError 503 :: [SyncOutcome.success]) 5
        = (if 500 ≤ 503 then
            ((listen_forever false 80 5 [SyncOutcome.success] 5).1
              ++ Event.syncCall :: Event.slept (delayAfter 80 5 [SyncOutcome.success] 5)
                :: (listen_forever false 80 5 [SyncOutcome.success]
                      (min (delayAfter 80 5 [SyncOutcome.success] 5 * 2) 80)).1,
             (listen_forever false 80 5 [SyncOutcome.success]
                (min (delayAfter 80 5 [SyncOutcome.success] 5 * 2) 80)).2)
          else
            ((listen_forever false 80 5 [SyncOutcome.success] 5).1 ++ [Event.syncCall],
             some (Exc.matrixError 503)))
        ∧ (listen_forever false 80 5
            ([SyncOutcome.success] ++ [SyncOutcome.matrixError 503]) 5).2
            = (if 500 ≤ 503 then none else some (Exc.matrixError 503))) :=
  ⟨by decide,
   listen_forever_status_classification false 80 5 5 503 [SyncOutcome.success]
     [SyncOutcome.success] (by decide)⟩

/-- Witness for the amended C2 at `limit = 3600`, `base = d = 5`, `t = 7`,
`c = 401`, `pre = [success]`, `rest = [success]`. -/
theorem listen_forever_handler_invocation_witness :
    nonFatalList true [SyncOutcome.success] ∧ 401 < 500
    ∧ (listen_forever true 3600 5
          ([SyncOutcome.success] ++ SyncOutcome.otherError 7 :: [SyncOutcome.success]) 5
        = ((listen_forever true 3600 5 [SyncOutcome.success] 5).1
            ++ Event.syncCall :: Event.handled (Exc.otherError 7)
              :: (listen_forever true 3600 5 [SyncOutcome.success]
                    (delayAfter 3600 5 [SyncOutcome.success] 5)).1,
           (listen_forever true 3600 5 [SyncOutcome.success]
              (delayAfter 3600 5 [SyncOutcome.success] 5)).2)
        ∧ handledEvents (listen_forever true 3600 5
              ([SyncOutcome.success] ++ [SyncOutcome.otherError 7]) 5).1
            = handledEvents (listen_forever true 3600 5 [SyncOutcome.success] 5).1
              ++ [Exc.otherError 7]
        ∧ listen_forever true 3600 5
              ([SyncOutcome.success] ++ SyncOutcome.matrixError 401 :: [SyncOutcome.success]) 5
            = ((listen_forever true 3600 5 [SyncOutcome.success] 5).1 ++ [Event.syncCall],
               some (Exc.matrixError 401))) :=
  ⟨by decide, by decide,
   listen_forever_handler_invocation 3600 5 5 7 401 [SyncOutcome.success]
     [SyncOutcome.success] (by decide) (by decide)⟩

/-- Witness for C3 at `h = false`, `limit = 80`, `base = 5`, `c = 503`,
`N = 3`, `rest = [success]`. -/
theorem listen_forever_backoff_sequence_witness :
    500 ≤ 503
    ∧ (sleeps (listen_forever false 80 5
          (List.replicate 3 (SyncOutcome.matrixError 503) ++ [SyncOutcome.success]) 5).1
        = ((List.range 3).map fun i => if i = 0 then 5 else min (5 * 2 ^ i) 80)
          ++ sleeps (listen_forever false 80 5 [SyncOutcome.success]
               (if 3 = 0 then 5 else min (5 * 2 ^ 3) 80)).1
      ∧ sleeps (listen_forever false 80 5
          (List.replicate 3 (SyncOutcome.matrixError 503) ++ [SyncOutcome.success]) 5).1
          = [5, 10, 20]) :=
  ⟨by decide,
   listen_forever_backoff_sequence false 80 5 503 3 (by decide) [SyncOutcome.success]⟩

/-- Witness for C4 at `h = false`, `limit = 80`, `base = 5`, `d = 20`,
`pre = [matrixError 503]`, `rest = [matrixError 503]`. -/
theorem listen_forever_reset_after_success_witness :
    nonFatalList false [SyncOutcome.matrixError 503]
    ∧ (listen_forever false 80 5
          ([SyncOutcome.matrixError 503]
            ++ SyncOutcome.success :: [SyncOutcome.matrixError 503]) 20
        = ((listen_forever false 80 5
              ([SyncOutcome.matrixError 503] ++ [SyncOutcome.success]) 20).1
            ++ (listen_forever false 80 5 [SyncOutcome.matrixError 503] 5).1,
           (listen_forever false 80 5 [SyncOutcome.matrixError 503] 5).2)
        ∧ delayAfter 80 5 ([SyncOutcome.matrixError 503] ++ [SyncOutcome.success]) 20 = 5) :=
  ⟨by decide,
   listen_forever_reset_after_success false 80 5 20 [SyncOutcome.matrixError 503]
     [SyncOutcome.matrixError 503] (by decide)⟩

/-- Witness for C5 at `limit = 3600`, `base = d = 5`, a 401 response after one
successful iteration, with two further iterations scripted that are never
reached. -/
theorem listen_forever_fatal_stops_witness :
    nonFatalList false [SyncOutcome.success]
    ∧ fatalExc false (SyncOutcome.matrixError 401) = some (Exc.matrixError 401)
    ∧ (listen_forever false 3600 5
          ([SyncOutcome.success] ++ SyncOutcome.matrixError 401
            :: [SyncOutcome.success, SyncOutcome.success]) 5
        = ((listen_forever false 3600 5 [SyncOutcome.success] 5).1 ++ [Event.syncCall],
           some (Exc.matrixError 401))
        ∧ syncCount (listen_forever false 3600 5
              ([SyncOutcome.success] ++ SyncOutcome.matrixError 401
                :: [SyncOutcome.success, SyncOutcome.success]) 5).1
            = [SyncOutcome.success].length + 1
        ∧ listen_forever false 3600 5
              ([SyncOutcome.success] ++ SyncOutcome.matrixError 401
                :: [SyncOutcome.success, SyncOutcome.success]) 5
            = listen_forever false 3600 5
                ([SyncOutcome.success] ++ SyncOutcome.matrixError 401 :: []) 5) :=
  ⟨by decide, by decide,
   listen_forever_fatal_stops 3600 5 5 (SyncOutcome.matrixError 401) (Exc.matrixError 401)
     [SyncOutcome.success] [SyncOutcome.success, SyncOutcome.success] []
     (by decide) (by decide)⟩

/-- Witness for C6 at `h = false`, `limit = 80`, `base = 5` and a script with
two transient failures and a success. -/
theorem listen_forever_delay_in_range_witness :
    0 < 5 ∧ 5 ≤ 80
    ∧ (sleeps (listen_forever false 80 5
          [SyncOutcome.matrixError 503, SyncOutcome.matrixError 503,
            SyncOutcome.success] 5).1).Forall
        (fun x => 5 ≤ x ∧ x ≤ 80) :=
  ⟨by decide, by decide,
   listen_forever_delay_in_range false 80 5
     [SyncOutcome.matrixError 503, SyncOutcome.matrixError 503, SyncOutcome.success]
     (by decide) (by decide)⟩

/-- The listener-lifecycle state of a `GMatrixClient`: the `should_listen`
flag, the `sync_thread` handle (the id of the most recently spawned
greenlet), and the ids of every greenlet spawned so far — `gevent.spawn`
starts a new greenlet without stopping any earlier one. -/
structure GMatrixClientState where
  should_listen : Bool
  sync_thread : Option Nat
  spawned : List Nat
deriving DecidableEq, Repr

/-- Embedding of `GMatrixClient.start_listener_thread`: sets
`self.should_listen = True` and then `self.sync_thread =
gevent.spawn(self.listen_forever, ...)`, unconditionally. -/
def start_listener_thread (s : GMatrixClientState) : GMatrixClientState :=
  { should_listen := true,
    sync_thread := some s.spawned.length,
    spawned := s.spawned ++ [s.spawned.length] }

/-- **C7 counterexample**: calling `start_listener_thread` twice from a fresh
client is neither a no-op nor an error: the second call changes the state
again and spawns a second listener greenlet while the first keeps running,
so two background sync tasks are active at once. -/
theorem start_listener_thread_counterexample :
    (start_listener_thread (start_listener_thread
        { should_listen := false, sync_thread := none, spawned := [] })).spawned.length = 2
    ∧ start_listener_thread (start_listener_thread
        { should_listen := false, sync_thread := none, spawned := [] })
      ≠ start_listener_thread
        { should_listen := false, sync_thread := none, spawned := [] } := by
  decide

/-- **C7 (amended)**: `start_listener_thread` is not idempotent: every call
unconditionally sets `should_listen`, spawns a fresh listener greenlet and
overwrites `sync_thread` with it, leaving previously spawned greenlets
running, so `n` calls add `n` active background sync tasks. -/
theorem start_listener_thread_spawns (s : GMatrixClientState) :
    (start_listener_thread s).should_listen = true
    ∧ (start_listener_thread s).sync_thread = some s.spawned.length
    ∧ (start_listener_thread s).spawned = s.spawned ++ [s.spawned.length]
    ∧ ∀ n : Nat, (start_listener_thread^[n] s).spawned.length
        = s.spawned.length + n := by
  refine ⟨rfl, rfl, rfl, ?_⟩
  intro n
  induction n with
  | zero => simp
  | succ m ih =>
    rw [Function.iterate_succ_apply']
    simp only [start_listener_thread, List.length_append, List.length_cons,
      List.length_nil, ih]
    omega

/-- A JSON-like value, as Python hands it to `search_user_directory` after
decoding the response body. -/
inductive JValue where
  | null : JValue
  | bool (b : Bool) : JValue
  | num (n : Int) : JValue
  | str (s : String) : JValue
  | arr (xs : List JValue) : JValue
  | obj (fields : List (String × JValue)) : JValue

/-- The two Python exceptions relevant to `search_user_directory`:
the `except KeyError` clause catches only the first. -/
inductive PyExc where
  | keyError : PyExc
  | typeError : PyExc
deriving DecidableEq, Repr

/-- Python subscription `v[k]` with a string key: a `dict` lookup raises
`KeyError` when the key is absent; subscribing a list, a string, a number,
a boolean or `None` with a string key raises `TypeError`. -/
def getItem (v : JValue) (k : String) : Except PyExc JValue :=
  match v with
  | .obj fields =>
    match fields.lookup k with
    | some x => .ok x
    | none => .error .keyError
  | _ => .error .typeError

/-- Python iteration `for x in v`: lists yield their elements, dicts their
keys, strings their characters; numbers, booleans and `None` are not
iterable and raise `TypeError`. -/
def iterate (v : JValue) : Except PyExc (List JValue) :=
  match v with
  | .arr xs => .ok xs
  | .obj fields => .ok (fields.map fun p => JValue.str p.1)
  | .str s => .ok (s.toList.map fun ch => JValue.str ch.toString)
  | _ => .error .typeError

/-- A `matrix_client.user.User` as constructed by `search_user_directory`
via `User(self.api, _user['user_id'], _user['display_name'])`; the shared
`api` handle is omitted, the two looked-up fields are kept. -/
structure User where
  user_id : JValue
  display_name : JValue

/-- The list comprehension of `search_user_directory`: build one `User` per
record, evaluating `_user['user_id']` then `_user['display_name']` in
iteration order; the first exception aborts the whole comprehension. -/
def buildUsers : List JValue → Except PyExc (List User)
  | [] => .ok []
  | u :: rest =>
    match getItem u "user_id" with
    | .error e => .error e
    | .ok uid =>
      match getItem u "display_name" with
      | .error e => .error e
      | .ok dn =>
        match buildUsers rest with
        | .error e => .error e
        | .ok tl => .ok (User.mk uid dn :: tl)

/-- Embedding of `GMatrixClient.search_user_directory`, applied to the
decoded response body: the comprehension over `response['results']` is
wrapped in `try ... except KeyError: return []` — only `KeyError` is
caught, every other exception propagates. -/
def search_user_directory (response : JValue) : Except PyExc (List User) :=
  let attempt : Except PyExc (List User) :=
    match getItem response "results" with
    | .error e => .error e
    | .ok results =>
      match iterate results with
      | .error e => .error e
      | .ok items => buildUsers items
  match attempt with
  | .error .keyError => .ok []
  | r => r

/-- **C8 counterexample**: a malformed `results` field that is a number
(response `{"results": 0}`) does not yield an empty list — iterating it
raises a `TypeError`, which the `except KeyError` clause does not catch, so
the error propagates. -/
theorem search_user_directory_counterexample :
    search_user_directory (JValue.obj [("results", JValue.num 0)])
      = Except.error PyExc.typeError := rfl

/-- **C8 (amended)**: a response without a `results` key yields `[]` (the
`KeyError` is caught), and so does a record list whose records lack the
`user_id`/`display_name` keys; but a `results` value that is not iterable
(for example a number) raises a `TypeError` that propagates; a well-formed
list of records yields one `User` per record. -/
theorem search_user_directory_leniency (fs : List (String × JValue)) (n : Int)
    (users : List (JValue × JValue)) (hfs : fs.lookup "results" = none) :
    search_user_directory (JValue.obj fs) = Except.ok []
    ∧ search_user_directory (JValue.obj [("results", JValue.num n)])
        = Except.error PyExc.typeError
    ∧ search_user_directory
        (JValue.obj [("results", JValue.arr [JValue.obj []])]) = Except.ok []
    ∧ search_user_directory
        (JValue.obj [("results",
          JValue.arr (users.map fun p =>
            JValue.obj [("user_id", p.1), ("display_name", p.2)]))])
        = Except.ok (users.map fun p => User.mk p.1 p.2) := by
  refine ⟨?_, rfl, rfl, ?_⟩
  · simp [search_user_directory, getItem, hfs]
  · have hbuild : ∀ us : List (JValue × JValue),
        buildUsers (us.map fun p =>
            JValue.obj [("user_id", p.1), ("display_name", p.2)])
          = Except.ok (us.map fun p => User.mk p.1 p.2) := by
      intro us
      induction us with
      | nil => rfl
      | cons p tl ih =>
        simp only [List.map_cons, buildUsers, getItem, List.lookup, ih]
        rfl
    simp [search_user_directory, getItem, List.lookup, iterate, hbuild]

/-- Witness for the amended C8 at the response `{"other": null}` for the
missing-key case, `{"results": 0}` for the type error, and a one-record
well-formed `results` list. -/
theorem search_user_directory_leniency_witness :
    List.lookup "results" [("other", JValue.null)] = none
    ∧ (search_user_directory (JValue.obj [("other", JValue.null)]) = Except.ok []
      ∧ search_user_directory (JValue.obj [("results", JValue.num 0)])
          = Except.error PyExc.typeError
      ∧ search_user_directory
          (JValue.obj [("results", JValue.arr [JValue.obj []])]) = Except.ok []
      ∧ search_user_directory
          (JValue.obj [("results",
            JValue.arr ([(JValue.str "@alice:srv", JValue.str "Alice")].map fun p =>
              JValue.obj [("user_id", p.1), ("display_name", p.2)]))])
          = Except.ok ([(JValue.str "@alice:srv", JValue.str "Alice")].map
              fun p => User.mk p.1 p.2)) :=
  ⟨rfl,
   search_user_directory_leniency [("other", JValue.null)] 0
     [(JValue.str "@alice:srv", JValue.str "Alice")] rfl⟩

/-- A callback as it sits in the base-class listener registry: either passed
through unchanged (`raw`) or wrapped by the concurrency adapter
(`adapted`). -/
inductive Registered (C : Type) where
  | raw : C → Registered C
  | adapted : C → Registered C

/-- Modelled from the spec: `geventify_callback` (imported from
`raiden_libs/network/matrix/utils.py`, a module not part of the excerpt) is
the function-adapter that wraps a listener so that its execution is
scheduled compatibly with the gevent concurrency model; here it is kept
abstract as the `adapted` marker on the callback. -/
def geventify_callback {C : Type} (callback : C) : Registered C :=
  Registered.adapted callback

/-- The listener registries of the base `MatrixClient`, one append-only list
per category; `listeners` and `ephemeral_listeners` keep the optional
`event_type` filter next to the callback. -/
structure ListenerState (C : Type) where
  invite_listeners : List (Registered C)
  leave_listeners : List (Registered C)
  presence_listeners : List (Registered C)
  listeners : List (Registered C × Option String)
  ephemeral_listeners : List (Registered C × Option String)

/-- Base-class `MatrixClient.add_invite_listener`: appends the given
callback, as given, to its registry. -/
def super_add_invite_listener {C : Type} (cb : Registered C) (s : ListenerState C) :
    ListenerState C :=
  { s with invite_listeners := s.invite_listeners ++ [cb] }

/-- Base-class `MatrixClient.add_leave_listener`. -/
def super_add_leave_listener {C : Type} (cb : Registered C) (s : ListenerState C) :
    ListenerState C :=
  { s with leave_listeners := s.leave_listeners ++ [cb] }

/-- Base-class `MatrixClient.add_presence_listener`. -/
def super_add_presence_listener {C : Type} (cb : Registered C) (s : ListenerState C) :
    ListenerState C :=
  { s with presence_listeners := s.presence_listeners ++ [cb] }

/-- Base-class `MatrixClient.add_listener`. -/
def super_add_listener {C : Type} (cb : Registered C) (event_type : Option String)
    (s : ListenerState C) : ListenerState C :=
  { s with listeners := s.listeners ++ [(cb, event_type)] }

/-- Base-class `MatrixClient.add_ephemeral_listener`. -/
def super_add_ephemeral_listener {C : Type} (cb : Registered C) (event_type : Option String)
    (s : ListenerState C) : ListenerState C :=
  { s with ephemeral_listeners := s.ephemeral_listeners ++ [(cb, event_type)] }

/-- `GMatrixClient.add_invite_listener`: wraps with `geventify_callback`
before delegating to the base class. -/
def add_invite_listener {C : Type} (callback : C) (s : ListenerState C) : ListenerState C :=
  super_add_invite_listener (geventify_callback callback) s

/-- `GMatrixClient.add_leave_listener`. -/
def add_leave_listener {C : Type} (callback : C) (s : ListenerState C) : ListenerState C :=
  super_add_leave_listener (geventify_callback callback) s

/-- `GMatrixClient.add_presence_listener`. -/
def add_presence_listener {C : Type} (callback : C) (s : ListenerState C) : ListenerState C :=
  super_add_presence_listener (geventify_callback callback) s

/-- `GMatrixClient.add_listener`. -/
def add_listener {C : Type} (callback : C) (event_type : Option String)
    (s : ListenerState C) : ListenerState C :=
  super_add_listener (geventify_callback callback) event_type s

/-- `GMatrixClient.add_ephemeral_listener`. -/
def add_ephemeral_listener {C : Type} (callback : C) (event_type : Option String)
    (s : ListenerState C) : ListenerState C :=
  super_add_ephemeral_listener (geventify_callback callback) event_type s

/-- **C9**: each of the five listener-registration overrides wraps the given
callback with `geventify_callback` before handing it to the base-class
registry: the entry appended to the registry is the adapted callback, and an
adapted callback is never equal to any raw one. -/
theorem add_listener_geventifies {C : Type} (callback : C) (event_type : Option String)
    (s : ListenerState C) :
    (add_invite_listener callback s).invite_listeners
      = s.invite_listeners ++ [Registered.adapted callback]
    ∧ (add_leave_listener callback s).leave_listeners
      = s.leave_listeners ++ [Registered.adapted callback]
    ∧ (add_presence_listener callback s).presence_listeners
      = s.presence_listeners ++ [Registered.adapted callback]
    ∧ (add_listener callback event_type s).listeners
      = s.listeners ++ [(Registered.adapted callback, event_type)]
    ∧ (add_ephemeral_listener callback event_type s).ephemeral_listeners
      = s.ephemeral_listeners ++ [(Registered.adapted callback, event_type)]
    ∧ ∀ c : C, Registered.adapted callback ≠ Registered.raw c := by
  refine ⟨rfl, rfl, rfl, rfl, rfl, ?_⟩
  intro c hcontra
  exact Registered.noConfusion hcontra

/-- The JSON body `modify_presence_list` posts to
`/presence/list/{user_id}`. -/
structure PresenceBody where
  invite : JValue
  drop : JValue

/-- Embedding of `GMatrixClient.modify_presence_list`: a `None` argument is
replaced by an empty list before the `{'invite': ..., 'drop': ...}` body is
built; a supplied list is used as given. -/
def modify_presence_list (add_user_ids remove_user_ids : Option (List String)) :
    PresenceBody :=
  let add := match add_user_ids with | none => [] | some l => l
  let remove := match remove_user_ids with | none => [] | some l => l
  { invite := JValue.arr (add.map JValue.str),
    drop := JValue.arr (remove.map JValue.str) }

/-- **C10**: omitting either argument of `modify_presence_list` puts an
empty JSON list — not `null` — in the corresponding `invite`/`drop` field of
the request body, and the supplied argument is passed through unchanged. -/
theorem modify_presence_list_defaults (l : List String) :
    (modify_presence_list none (some l)).invite = JValue.arr []
    ∧ (modify_presence_list none (some l)).invite ≠ JValue.null
    ∧ (modify_presence_list none (some l)).drop = JValue.arr (l.map JValue.str)
    ∧ (modify_presence_list (some l) none).drop = JValue.arr []
    ∧ (modify_presence_list (some l) none).drop ≠ JValue.null
    ∧ (modify_presence_list (some l) none).invite = JValue.arr (l.map JValue.str)
    ∧ (modify_presence_list none none).invite = JValue.arr []
    ∧ (modify_presence_list none none).drop = JValue.arr [] := by
  refine ⟨rfl, ?_, rfl, rfl, ?_, rfl, rfl, rfl⟩
  · intro hcontra
    exact JValue.noConfusion hcontra
  · intro hcontra
    exact JValue.noConfusion hcontra

end GMatrix
